import Mathlib

/-!
Shallow embedding of the game core of `src/bot.py` (a Discord game bot):
the card engine (`Card`, `calculate_hand_value`, `BlackjackGame.play_dealer`),
the point ledger (`get_points`, `add_points`, `transfer_points`), the word
scrambler (`shuffle_word`), the mini-game session dictionaries
(`tebak_kata_active`, `trivia_active`, `sambung_kata_active` with `kata`),
and the debate scheduler (`debate_runner`, `debat_start`, `debat_stop`).

Python dictionaries are modelled as functions into `Option`; the in-place
mutation of `game_data['points']` is modelled by explicit state passing in
the same statement order as the source.  `random.shuffle` and `deck.draw()`
are nondeterministic in the source, so the corresponding definitions take
the outcomes (a list of permutation functions, a list of cards to draw) as
explicit parameters.
-/

namespace BotSpec

/-! ### String helpers

Python string methods, translated to character-list operations (these
mirror `str.lower`, `str.strip`, and `int` on digit strings; working on
`List Char` keeps every definition kernel-computable). -/

/-- `str.lower()`. -/
def lower (s : String) : String :=
  String.mk (s.toList.map Char.toLower)

/-- `str.strip()`: drop whitespace from both ends. -/
def stripChars (l : List Char) : List Char :=
  ((l.dropWhile Char.isWhitespace).reverse.dropWhile Char.isWhitespace).reverse

/-- `int(s)` on a string of decimal digits. -/
def strToNat (s : String) : Nat :=
  s.toList.foldl (fun n c => n * 10 + (c.toNat - 48)) 0

/-! ### Card engine (src/bot.py, class Card / calculate_hand_value / play_dealer) -/

/-- A playing card: `Card(suit, rank)` with rank one of
`'2'..'10','J','Q','K','A'`; the suit is cosmetic. -/
structure Card where
  suit : String
  rank : String
deriving DecidableEq, Repr

/-- `Card.value`: J/Q/K are 10, A is 11, otherwise `int(self.rank)`
(the remaining ranks are the digit strings `'2'..'10'`). -/
def Card.value (c : Card) : Nat :=
  if c.rank = "J" ∨ c.rank = "Q" ∨ c.rank = "K" then 10
  else if c.rank = "A" then 11
  else strToNat c.rank

/-- The first loop of `calculate_hand_value`: sum every card (aces at 11)
and count the aces. -/
def initialCount (cards : List Card) : Nat × Nat :=
  cards.foldl
    (fun p c =>
      if c.rank = "A" then (p.1 + 11, p.2 + 1) else (p.1 + c.value, p.2))
    (0, 0)

/-- The `while total > 21 and aces > 0: total -= 10; aces -= 1` loop of
`calculate_hand_value`; the ace count bounds the iterations. -/
def adjustAces : Nat → Nat → Nat × Nat
  | total, 0 => (total, 0)
  | total, a + 1 => if 21 < total then adjustAces (total - 10) a else (total, a + 1)

/-- `calculate_hand_value(cards) -> (total, is_soft)` with
`is_soft = aces > 0 and total + 10 <= 21` evaluated after the adjustment
loop, exactly as in the source. -/
def calculate_hand_value (cards : List Card) : Nat × Bool :=
  let tc := initialCount cards
  let ta := adjustAces tc.1 tc.2
  (ta.1, decide (0 < ta.2) && decide (ta.1 + 10 ≤ 21))

/-- Number of aces still counted as 11 once the adjustment loop finishes. -/
def acesStillEleven (cards : List Card) : Nat :=
  (adjustAces (initialCount cards).1 (initialCount cards).2).2

/-- Modelled from the spec: `"soft" = true if an ace is still counted as 11
after adjustment` — the softness predicate the spec attributes to
`calculate_hand_value`, kept separate so it can be compared with the
source's `is_soft`. -/
def is_soft_spec (cards : List Card) : Bool :=
  decide (0 < acesStillEleven cards)

/-- The dealer loop guard of `BlackjackGame.play_dealer`:
`dealer_value < 17 or (dealer_value == 17 and dealer_soft)`. -/
def dealerHits (value : Nat) (soft : Bool) : Bool :=
  decide (value < 17) || (decide (value = 17) && soft)

/-- `BlackjackGame.play_dealer`, drawing phase: while the guard holds,
append `deck.draw()` to the dealer hand and re-evaluate.  The
nondeterministic deck is the explicit `draws` stream; an exhausted stream
stops the recursion (the source's deck never exhausts, so theorems either
quantify over `draws` or supply enough cards). -/
def play_dealer_hand (hand : List Card) : List Card → List Card
  | [] => hand
  | d :: ds =>
      let vs := calculate_hand_value hand
      if dealerHits vs.1 vs.2 then play_dealer_hand (hand ++ [d]) ds
      else hand

/-- The ace of spades, `Card('♠️', 'A')`. -/
def cardA : Card := ⟨"S", "A"⟩

/-- The six of spades, `Card('♠️', '6')`. -/
def card6 : Card := ⟨"S", "6"⟩

/-! ### Economy ledger (src/bot.py, get_points / add_points / transfer_points)

`game_data['points']` is a JSON dictionary from user-id strings to
integers; we model it as `String → Option Int`.  `ensure_user_data` is
`setdefault(uid, 0)`; every read goes through `int(...)`, i.e. `getD 0`
after an ensure. -/

/-- The `points` table of `game_data`. -/
abbrev Points := String → Option Int

/-- `ensure_user_data`: `game_data['points'].setdefault(uid, 0)`. -/
def ensure_user_data (p : Points) (uid : String) : Points :=
  fun u => if u = uid then some ((p uid).getD 0) else p u

/-- `get_points(user_id)`: ensure, then read; returns the value and the
(possibly lazily initialized) table. -/
def get_points (p : Points) (uid : String) : Int × Points :=
  let p1 := ensure_user_data p uid
  ((p1 uid).getD 0, p1)

/-- `add_points(user_id, amount)`: ensure, then
`points[uid] = max(0, points[uid] + amount)`; returns the new balance. -/
def add_points (p : Points) (uid : String) (amount : Int) : Int × Points :=
  let p1 := ensure_user_data p uid
  let newv := max 0 ((p1 uid).getD 0 + amount)
  (newv, fun u => if u = uid then some newv else p1 u)

/-- `transfer_points(from_user_id, to_user_id, amount)`: ensure both
accounts, `amount = max(0, amount)`,
`real_amount = min(amount, points[from])`, then debit and credit in the
source's statement order (the credit reads the table already holding the
debit, which matters when the two ids coincide).  Returns
`real_amount` and the final table. -/
def transfer_points (p : Points) (fromU toU : String) (amount : Int) :
    Int × Points :=
  let p1 := ensure_user_data p fromU
  let p2 := ensure_user_data p1 toU
  let amt := max 0 amount
  let real := min amt ((p2 fromU).getD 0)
  let p3 : Points := fun u => if u = fromU then some ((p2 fromU).getD 0 - real) else p2 u
  let p4 : Points := fun u => if u = toU then some ((p3 toU).getD 0 + real) else p3 u
  (real, p4)

/-- All stored balances are non-negative. -/
def NonNegPoints (p : Points) : Prop :=
  ∀ u v, p u = some v → 0 ≤ v

/-- Concrete ledger: `"a" ↦ 10`, `"b" ↦ 3`, nothing else. -/
def pAB : Points :=
  fun u => if u = "a" then some 10 else if u = "b" then some 3 else none

/-- Concrete ledger: `"u" ↦ 30`, nothing else. -/
def pU30 : Points :=
  fun u => if u = "u" then some 30 else none

/-! ### Word scrambler (src/bot.py, shuffle_word)

`random.shuffle(chars)` permutes `chars` in place; the ten successive
shuffle outcomes are supplied as a list of functions on the character
list (hypotheses restrict them to permutations where a claim needs it). -/

/-- The `for _ in range(10)` loop body of `shuffle_word`: shuffle, then
return the candidate if its lowercase differs from the original word's
lowercase, else continue with the shuffled characters; after the last
attempt the (shuffled) characters are returned as they stand. -/
def shuffleGo (wlower : String) : List (List Char → List Char) → List Char → List Char
  | [], chars => chars
  | f :: fs, chars =>
      let chars1 := f chars
      if lower (String.mk chars1) ≠ wlower then chars1
      else shuffleGo wlower fs chars1

/-- `shuffle_word(word)`: `chars = list(word)`; words shorter than 2
characters are returned unchanged, otherwise the attempt loop runs and
its final character list is joined. -/
def shuffle_word (shuffles : List (List Char → List Char)) (word : String) : String :=
  if word.toList.length < 2 then word
  else String.mk (shuffleGo (lower word) shuffles word.toList)

/-- One shuffle outcome that reverses the list, then nine that leave it in
place: a run of ten `random.shuffle` results. -/
def cexShuffles : List (List Char → List Char) :=
  (fun l => l.reverse) :: List.replicate 9 (fun l => l)

/-! ### Mini-game session dictionaries (src/bot.py, tebak_kata / trivia)

`tebak_kata_active`, `tebak_gambar_active`, `trivia_active`,
`sambung_kata_active` are module-level dicts keyed by channel id. -/

/-- A word/image guessing session: `{'answer': ..., 'prompt_id': ...}`. -/
structure WordSession where
  answer : String
  prompt_id : Nat
deriving DecidableEq, Repr

/-- A trivia entry: question, labeled options, correct label. -/
structure TriviaQ where
  question : String
  options : List (String × String)
  answer : String
deriving DecidableEq, Repr

/-- Word-chain session state: `{'last': ..., 'used': {...}}`.  The Python
set of used words is modelled as a list with membership. -/
structure ChainState where
  last : String
  used : List String
deriving DecidableEq, Repr

/-- The four per-channel session dictionaries. -/
structure MiniGames where
  tebak_kata_active : Nat → Option WordSession
  tebak_gambar_active : Nat → Option WordSession
  trivia_active : Nat → Option TriviaQ
  sambung_kata_active : Nat → Option ChainState

/-- The `!tebakkata` handler's state effect:
`tebak_kata_active[channel_id] = {'answer': answer.lower(), 'prompt_id': prompt.id}` —
an unconditional store, there is no already-active check in the source. -/
def tebak_kata_start (g : MiniGames) (channelId : Nat) (answer : String)
    (promptId : Nat) : MiniGames :=
  { g with
    tebak_kata_active := fun c =>
      if c = channelId then some ⟨lower answer, promptId⟩
      else g.tebak_kata_active c }

/-- The `!trivia` handler's state effect: `trivia_active[channel_id] = q` —
again an unconditional store. -/
def trivia_start (g : MiniGames) (channelId : Nat) (q : TriviaQ) : MiniGames :=
  { g with
    trivia_active := fun c =>
      if c = channelId then some q else g.trivia_active c }

/-- Concrete registry: channel 1 holds an active word-guess session
(answer `python`, prompt 5) and an active trivia session; nothing else. -/
def gAct : MiniGames where
  tebak_kata_active := fun c => if c = 1 then some ⟨"python", 5⟩ else none
  tebak_gambar_active := fun _ => none
  trivia_active := fun c =>
    if c = 1 then some ⟨"9 x 8?", [("A", "72"), ("B", "81")], "A"⟩ else none
  sambung_kata_active := fun _ => none

/-- A trivia question from `TRIVIA_BANK`. -/
def qJup : TriviaQ :=
  ⟨"Planet terbesar di tata surya adalah...",
   [("A", "Mars"), ("B", "Jupiter"), ("C", "Bumi"), ("D", "Saturnus")], "B"⟩

/-! ### Word chain (src/bot.py, clean_word / kata) -/

/-- `clean_word(word)`: lowercase, strip, keep alphabetic characters. -/
def clean_word (word : String) : String :=
  String.mk ((stripChars (lower word).toList).filter Char.isAlpha)

/-- Outcome of the `!kata` handler on an active session: the three
rejection messages, in source order, or acceptance of the cleaned word. -/
inductive KataResult where
  | tooShort
  | alreadyUsed
  | wrongStart (required : Char)
  | ok (cleaned : String)
deriving DecidableEq, Repr

/-- The `!kata` handler's session logic (the session exists): clean the
word; reject if fewer than 3 letters, if already used, or if its first
letter is not the last letter of `state.last` (`last_word[-1]`, which in
the source presupposes a non-empty last word — reachable sessions always
have one, and the fallback `' '` is never consulted there); otherwise add
the cleaned word to the used set and make it the new last word. -/
def kata_step (state : ChainState) (word : String) : KataResult × ChainState :=
  let cleaned := clean_word word
  if cleaned.toList.length < 3 then (.tooShort, state)
  else if cleaned ∈ state.used then (.alreadyUsed, state)
  else
    let required := state.last.toList.getLastD ' '
    if cleaned.toList.headD ' ' ≠ required then (.wrongStart required, state)
    else (.ok cleaned, ⟨cleaned, cleaned :: state.used⟩)

/-- Concrete word-chain state: last word `kata`, used set `{kata}`. -/
def chainKata : ChainState := ⟨"kata", ["kata"]⟩

/-! ### Debate scheduler (src/bot.py, DebateSession / debate_runner /
debat_start / debat_stop) -/

/-- `DebateSession` dataclass (score log entries pair a user id with the
side label). -/
structure DebateSession where
  guild_id : Nat
  channel_id : Nat
  topic : String
  turn_seconds : Nat
  rounds : Nat
  pro : List Nat
  kontra : List Nat
  points : List (Nat × String)
  running : Bool
deriving DecidableEq, Repr

/-- One turn announcement of `debate_runner`:
`Round r • Giliran side: <@uid>`. -/
structure Turn where
  round : Nat
  side : String
  uid : Nat
deriving DecidableEq, Repr

/-- The iteration space of `debate_runner`'s three nested loops, in loop
order: `for r in range(1, rounds + 1)`, then
`for side_name, lineup in [('PRO', pro), ('KONTRA', kontra)]`, then
`for uid in lineup`. -/
def loop_turns (rounds : Nat) (pro kontra : List Nat) : List Turn :=
  (List.range' 1 rounds).flatMap fun r =>
    (pro.map fun uid => ⟨r, "PRO", uid⟩) ++ (kontra.map fun uid => ⟨r, "KONTRA", uid⟩)

/-- The per-iteration body of `debate_runner`: before each announcement the
runner checks `if not session.running: return` and the whole loop nest
exits.  `running k` is the flag value the runner observes at its `k`-th
check (cooperative model: an external stop or task cancellation makes the
observation `false` from that point on). -/
def runTurns (running : Nat → Bool) : Nat → List Turn → List Turn
  | _, [] => []
  | k, t :: ts => if running k then t :: runTurns running (k + 1) ts else []

/-- `debate_runner(session)`, turn-announcement trace: the three nested
loops flattened to `loop_turns`, driven through the per-turn flag check. -/
def debate_runner (running : Nat → Bool) (rounds : Nat) (pro kontra : List Nat) :
    List Turn :=
  runTurns running 0 (loop_turns rounds pro kontra)

/-- An `asyncio.Task` handle as the scheduler observes it: `done()` and
whether `cancel()` has been called. -/
structure TaskH where
  done : Bool
  cancelled : Bool
deriving DecidableEq, Repr

/-- A task that may still run: neither finished nor cancel-requested.  In
the cooperative model a cancelled task's next flag observation is `false`,
so it emits nothing further. -/
def TaskH.alive (t : TaskH) : Bool := !t.done && !t.cancelled

/-- Result message of `!debat_start`. -/
inductive StartResult where
  | noSession
  | alreadyRunning
  | emptySide
  | started
deriving DecidableEq, Repr

/-- Output of `!debat_start`: the reply, the previous task handle as it
stands after the call (Python mutates the old task object in place when it
cancels it), and the `debate_tasks` table after the call. -/
structure StartOut where
  result : StartResult
  oldTaskAfter : Option TaskH
  tasks : Nat → Option TaskH

/-- `!debat_start`: no session → error; `s.running` → error; an empty side
→ error; otherwise cancel the old task if present and not done, then store
a fresh (not done, not cancelled) task under the channel. -/
def debat_start (sessions : Nat → Option DebateSession)
    (tasks : Nat → Option TaskH) (ch : Nat) : StartOut :=
  match sessions ch with
  | none => ⟨.noSession, tasks ch, tasks⟩
  | some s =>
      if s.running then ⟨.alreadyRunning, tasks ch, tasks⟩
      else if s.pro.isEmpty || s.kontra.isEmpty then ⟨.emptySide, tasks ch, tasks⟩
      else
        let oldAfter :=
          match tasks ch with
          | some t => some (if !t.done then { t with cancelled := true } else t)
          | none => none
        ⟨.started, oldAfter, fun c => if c = ch then some ⟨false, false⟩ else tasks c⟩

/-- Output of `!debat_stop`: the session object as it stands after the
call (Python sets `s.running = False` on the object the runner still
references, then deletes the dictionary entry), the session table, and
the task table (the cancelled task object stays in `debate_tasks`). -/
structure StopOut where
  found : Bool
  stoppedSession : Option DebateSession
  sessions : Nat → Option DebateSession
  tasks : Nat → Option TaskH

/-- `!debat_stop`: if a session exists, clear its running flag, cancel the
channel's task if present and not done, and delete the session. -/
def debat_stop (sessions : Nat → Option DebateSession)
    (tasks : Nat → Option TaskH) (ch : Nat) : StopOut :=
  match sessions ch with
  | none => ⟨false, none, sessions, tasks⟩
  | some s =>
      let tasks1 : Nat → Option TaskH := fun c =>
        if c = ch then
          match tasks ch with
          | some t => some (if !t.done then { t with cancelled := true } else t)
          | none => none
        else tasks c
      ⟨true, some { s with running := false },
        fun c => if c = ch then none else sessions c, tasks1⟩

/-- Concrete session table for channel 7: topic set, one user per side,
not running (as after `!debat_mulai` replaced a still-running session's
entry). -/
def sessions7 : Nat → Option DebateSession :=
  fun c => if c = 7 then some ⟨1, 7, "t", 10, 2, [1], [2], [], false⟩ else none

/-- Concrete task table for channel 7: a live (not done, not cancelled)
runner task left over from the replaced session. -/
def tasks7 : Nat → Option TaskH :=
  fun c => if c = 7 then some ⟨false, false⟩ else none

/-! ## Theorems -/

/-- C1: the spec says the dealer draws on soft 17 ({A,6}), but the source
evaluates `{A,6}` to `(17, is_soft := False)` — the guard
`total + 10 <= 21` fails at total 17 — so `play_dealer` stands
immediately: whatever the deck holds, the dealer hand stays `{A,6}`,
while the loop guard itself would have demanded a draw had `is_soft`
been `True` at 17. -/
theorem dealer_stands_on_soft_seventeen :
    calculate_hand_value [cardA, card6] = (17, false)
    ∧ (∀ draws, play_dealer_hand [cardA, card6] draws = [cardA, card6])
    ∧ dealerHits 17 true = true ∧ dealerHits 17 false = false := by
  have hv : calculate_hand_value [cardA, card6] = (17, false) := by decide
  refine ⟨hv, ?_, by decide, by decide⟩
  intro draws
  have h : dealerHits (calculate_hand_value [cardA, card6]).1
      (calculate_hand_value [cardA, card6]).2 = false := by decide
  cases draws with
  | nil => rfl
  | cons d ds => simp [play_dealer_hand, h]

/-- C2: on `{A,6}` the source's `calculate_hand_value` returns
`(17, False)` although an ace is still counted as 11 after the (never
entered) adjustment loop, so the spec's `isSoft` — "an ace is still
counted as 11 after adjustment" — is `true` there; the totals agree, the
softness flags diverge. -/
theorem hand_value_soft_flag_diverges :
    calculate_hand_value [cardA, card6] = (17, false)
    ∧ acesStillEleven [cardA, card6] = 1
    ∧ is_soft_spec [cardA, card6] = true := by
  decide

/-- C3 counterexample: channel 1 already holds a word-guess session
(answer `python`), yet `!tebakkata` does not fail — it overwrites the slot
with the new session, so the existing session's state is not preserved. -/
theorem session_overwrite_cex :
    gAct.tebak_kata_active 1 = some ⟨"python", 5⟩
    ∧ (tebak_kata_start gAct 1 "discord" 9).tebak_kata_active 1 = some ⟨"discord", 9⟩
    ∧ (tebak_kata_start gAct 1 "discord" 9).tebak_kata_active 1 ≠ gAct.tebak_kata_active 1 := by
  refine ⟨rfl, by decide, by decide⟩

/-- C3 amended: starting a word-guess or trivia session never fails — the
handler stores the new session under the channel unconditionally,
replacing any session of the same kind, and touches no other channel and
no other kind's table. -/
theorem session_start_replaces (g : MiniGames) (ch : Nat) (ans : String)
    (pid : Nat) (q : TriviaQ) :
    (tebak_kata_start g ch ans pid).tebak_kata_active ch = some ⟨lower ans, pid⟩
    ∧ (∀ c, c ≠ ch →
        (tebak_kata_start g ch ans pid).tebak_kata_active c = g.tebak_kata_active c)
    ∧ (tebak_kata_start g ch ans pid).tebak_gambar_active = g.tebak_gambar_active
    ∧ (tebak_kata_start g ch ans pid).trivia_active = g.trivia_active
    ∧ (tebak_kata_start g ch ans pid).sambung_kata_active = g.sambung_kata_active
    ∧ (trivia_start g ch q).trivia_active ch = some q
    ∧ (∀ c, c ≠ ch → (trivia_start g ch q).trivia_active c = g.trivia_active c)
    ∧ (trivia_start g ch q).tebak_kata_active = g.tebak_kata_active := by
  refine ⟨by simp [tebak_kata_start], ?_, rfl, rfl, rfl, by simp [trivia_start], ?_, rfl⟩
  · intro c hc
    simp [tebak_kata_start, hc]
  · intro c hc
    simp [trivia_start, hc]

/-- C3 amended, witness: replacing the active session of channel 1 leaves
channel 2's (empty) word-guess slot and kind-distinct tables alone while
installing the lowercased answer at channel 1. -/
theorem session_start_replaces_witness :
    (tebak_kata_start gAct 1 "discord" 9).tebak_kata_active 1 = some ⟨lower "discord", 9⟩
    ∧ (tebak_kata_start gAct 1 "discord" 9).tebak_kata_active 2 = gAct.tebak_kata_active 2
    ∧ (trivia_start gAct 1 qJup).trivia_active 1 = some qJup := by
  have h := session_start_replaces gAct 1 "discord" 9 qJup
  exact ⟨h.1, h.2.1 2 (by decide), h.2.2.2.2.2.1⟩

/-- C4 counterexample: with balance 10 at `a`, a transfer of −5 moves 0 —
not `min(requestedAmount, fromBalance) = −5` — so neither "moves exactly
min(requestedAmount, fromBalance)" nor
"`actualAmount ≤ min(amount, balanceBefore(fromId))`" holds at a negative
requested amount. -/
theorem transfer_misclamped_cex :
    (transfer_points pAB "a" "b" (-5)).1 = 0
    ∧ min (-5 : Int) ((pAB "a").getD 0) = -5
    ∧ (transfer_points pAB "a" "b" (-5)).1 ≠ min (-5 : Int) ((pAB "a").getD 0)
    ∧ ¬ (transfer_points pAB "a" "b" (-5)).1 ≤ min (-5 : Int) ((pAB "a").getD 0) := by
  decide

/-- C4 amended: `Transfer` moves exactly
`min(max(0, requestedAmount), fromBalance)` (which is
`min(requestedAmount, fromBalance)` whenever the request is
non-negative), the sender's balance never becomes negative, and
`balance(from) + balance(to)` is preserved. -/
theorem transfer_clamped_conservation (p : Points) (fromU toU : String) (amount : Int)
    (hf : 0 ≤ (p fromU).getD 0) :
    (transfer_points p fromU toU amount).1 = min (max 0 amount) ((p fromU).getD 0)
    ∧ 0 ≤ ((transfer_points p fromU toU amount).2 fromU).getD 0
    ∧ (0 ≤ amount → (transfer_points p fromU toU amount).1 ≤ min amount ((p fromU).getD 0))
    ∧ ((transfer_points p fromU toU amount).2 fromU).getD 0
        + ((transfer_points p fromU toU amount).2 toU).getD 0
      = (p fromU).getD 0 + (p toU).getD 0 := by
  by_cases h : fromU = toU
  · subst h
    simp [transfer_points, ensure_user_data]
    omega
  · simp [transfer_points, ensure_user_data, h, Ne.symm h]
    omega

/-- C4 amended, witness: a transfer of 7 from `a` (balance 10) to `b`
(balance 3) moves the clamp value and preserves the combined balance. -/
theorem transfer_clamped_conservation_witness :
    (transfer_points pAB "a" "b" 7).1 = min (max 0 7) ((pAB "a").getD 0)
    ∧ ((transfer_points pAB "a" "b" 7).2 "a").getD 0
        + ((transfer_points pAB "a" "b" 7).2 "b").getD 0
      = (pAB "a").getD 0 + (pAB "b").getD 0 := by
  have h := transfer_clamped_conservation pAB "a" "b" 7 (by decide)
  exact ⟨h.1, h.2.2.2⟩

/-- Stored balances that came from a `NonNegPoints` table read back
non-negative through the source's `int(...)`-with-default access. -/
theorem nonneg_getD (p : Points) (h : NonNegPoints p) (u : String) :
    0 ≤ (p u).getD 0 := by
  cases hp : p u with
  | none => simp
  | some v => simpa using h u v hp

/-- The concrete 30-point ledger is non-negative. -/
theorem pU30_nonneg : NonNegPoints pU30 := by
  intro u v hv
  by_cases hu : u = "u"
  · simp_all [pU30]
    omega
  · simp_all [pU30]

/-- C9: `add_points` returns exactly `max(0, old + delta)`, and each of
`add_points`, `get_points` and `transfer_points` maps a table of
non-negative balances to a table of non-negative balances. -/
theorem ledger_nonneg_clamp (p : Points) (uid u2 : String) (delta amount : Int)
    (h : NonNegPoints p) :
    (add_points p uid delta).1 = max 0 ((p uid).getD 0 + delta)
    ∧ NonNegPoints (add_points p uid delta).2
    ∧ NonNegPoints (get_points p uid).2
    ∧ NonNegPoints (transfer_points p uid u2 amount).2 := by
  have hg := nonneg_getD p h
  refine ⟨by simp [add_points, ensure_user_data], ?_, ?_, ?_⟩
  · intro u v huv
    by_cases hu : u = uid
    · subst hu
      simp [add_points, ensure_user_data] at huv
      omega
    · simp [add_points, ensure_user_data, hu] at huv
      exact h u v huv
  · intro u v huv
    by_cases hu : u = uid
    · subst hu
      simp [get_points, ensure_user_data] at huv
      exact huv ▸ hg u
    · simp [get_points, ensure_user_data, hu] at huv
      exact h u v huv
  · intro u v huv
    have h1 := hg uid
    have h2 := hg u2
    by_cases h12 : uid = u2
    · subst h12
      by_cases hu : u = uid
      · subst hu
        simp [transfer_points, ensure_user_data] at huv
        omega
      · simp [transfer_points, ensure_user_data, hu] at huv
        exact h u v huv
    · by_cases hu2 : u = u2
      · subst hu2
        simp [transfer_points, ensure_user_data, h12, Ne.symm h12] at huv
        omega
      · by_cases hu : u = uid
        · subst hu
          simp [transfer_points, ensure_user_data, h12, hu2, Ne.symm h12] at huv
          omega
        · simp [transfer_points, ensure_user_data, hu, hu2] at huv
          exact h u v huv

/-- C9 witness: at balance 30, `add_points(u, -1000)` clamps to 0. -/
theorem ledger_nonneg_clamp_witness :
    (add_points pU30 "u" (-1000)).1 = max 0 ((pU30 "u").getD 0 + -1000)
    ∧ max (0 : Int) ((pU30 "u").getD 0 + -1000) = 0 := by
  exact ⟨(ledger_nonneg_clamp pU30 "u" "x" (-1000) 0 pU30_nonneg).1, by decide⟩

/-- C10: a negative requested amount is floored to 0 before the clamp, so
the transfer moves nothing: every balance reads back unchanged, the
sender's balance does not increase and the recipient's does not drop. -/
theorem transfer_negative_noop (p : Points) (fromU toU : String) (amount : Int)
    (hneg : amount < 0) (hf : 0 ≤ (p fromU).getD 0) :
    (transfer_points p fromU toU amount).1 = 0
    ∧ (∀ u, ((transfer_points p fromU toU amount).2 u).getD 0 = (p u).getD 0)
    ∧ ((transfer_points p fromU toU amount).2 fromU).getD 0 ≤ (p fromU).getD 0
    ∧ (p toU).getD 0 ≤ ((transfer_points p fromU toU amount).2 toU).getD 0 := by
  have hmax : max 0 amount = 0 := by omega
  have key : ∀ u, ((transfer_points p fromU toU amount).2 u).getD 0 = (p u).getD 0 := by
    intro u
    by_cases h : fromU = toU <;> by_cases hu : u = fromU <;> by_cases hu2 : u = toU <;>
      simp_all [transfer_points, ensure_user_data]
  have first : (transfer_points p fromU toU amount).1 = 0 := by
    by_cases h : fromU = toU <;> simp_all [transfer_points, ensure_user_data]
  exact ⟨first, key, le_of_eq (key fromU), le_of_eq (key toU).symm⟩

/-- C10 witness: the −5 transfer from `a` to `b` moves 0 and leaves `a`'s
balance at its prior value. -/
theorem transfer_negative_noop_witness :
    (transfer_points pAB "a" "b" (-5)).1 = 0
    ∧ ((transfer_points pAB "a" "b" (-5)).2 "a").getD 0 = (pAB "a").getD 0 := by
  have h := transfer_negative_noop pAB "a" "b" (-5) (by decide) (by decide)
  exact ⟨h.1, h.2.1 "a"⟩

/-- Every entry of `cexShuffles` permutes its input, as `random.shuffle`
does. -/
theorem cexShuffles_perms : ∀ f ∈ cexShuffles, ∀ l : List Char, (f l).Perm l := by
  intro f hf l
  simp [cexShuffles, List.mem_replicate] at hf
  rcases hf with h | h
  · subst h
    exact List.reverse_perm l
  · subst h
    exact List.Perm.refl l

/-- The attempt loop of `shuffle_word` returns a permutation of the
characters it starts from, provided each shuffle outcome permutes. -/
theorem shuffleGo_perm (wl : String) (fs : List (List Char → List Char))
    (hperm : ∀ f ∈ fs, ∀ l : List Char, (f l).Perm l) (chars : List Char) :
    (shuffleGo wl fs chars).Perm chars := by
  induction fs generalizing chars with
  | nil => simp [shuffleGo]
  | cons f fs ih =>
      simp only [shuffleGo]
      by_cases hc : lower (String.mk (f chars)) ≠ wl
      · rw [if_pos hc]
        exact hperm f (List.mem_cons_self f fs) chars
      · rw [if_neg hc]
        exact (ih (fun g hg l => hperm g (List.mem_cons_of_mem f hg) l) (f chars)).trans
          (hperm f (List.mem_cons_self f fs) chars)

/-- If the attempt loop's result is still lowercase-equal to the target,
no attempt returned early, so the result is all shuffles applied in
sequence. -/
theorem shuffleGo_exhausted (wl : String) (fs : List (List Char → List Char))
    (chars : List Char)
    (h : lower (String.mk (shuffleGo wl fs chars)) = wl) :
    shuffleGo wl fs chars = fs.foldl (fun l f => f l) chars := by
  induction fs generalizing chars with
  | nil => simp [shuffleGo]
  | cons f fs ih =>
      simp only [shuffleGo] at h ⊢
      by_cases hc : lower (String.mk (f chars)) ≠ wl
      · rw [if_pos hc] at h
        exact absurd h hc
      · rw [if_neg hc] at h ⊢
        simpa using ih (f chars) h

/-- C5 counterexample: with shuffle outcomes reverse-then-identity (all
permutations), the 2-character word `Aa` never yields a case-insensitively
different candidate, and the source returns the *last shuffled
arrangement* `aA` — a changed string — not the word unchanged. -/
theorem shuffle_degenerate_changed_cex :
    shuffle_word cexShuffles "Aa" = "aA"
    ∧ ("aA" : String) ≠ "Aa"
    ∧ lower "aA" = lower "Aa"
    ∧ cexShuffles.length = 10 := by
  exact ⟨by decide, by decide, by decide, rfl⟩

/-- C5 amended: `shuffle_word` always returns a permutation of the word's
characters; a word of fewer than 2 characters is returned unchanged; and
for longer words, whenever the result does *not* differ case-insensitively
from the original (no attempt in the budget differed), the result is the
outcome of all shuffles applied in sequence — lowercase-equal to the
original but not necessarily the original string itself. -/
theorem shuffle_word_spec (shuffles : List (List Char → List Char)) (word : String)
    (hperm : ∀ f ∈ shuffles, ∀ l : List Char, (f l).Perm l) :
    (shuffle_word shuffles word).toList.Perm word.toList
    ∧ (word.toList.length < 2 → shuffle_word shuffles word = word)
    ∧ (2 ≤ word.toList.length →
        lower (shuffle_word shuffles word) = lower word →
        (shuffle_word shuffles word).toList = shuffles.foldl (fun l f => f l) word.toList) := by
  by_cases hl : word.toList.length < 2
  · have he : shuffle_word shuffles word = word := by
      unfold shuffle_word
      rw [if_pos hl]
    refine ⟨by rw [he], fun _ => he, fun h2 => absurd h2 (by omega)⟩
  · have he : shuffle_word shuffles word
        = String.mk (shuffleGo (lower word) shuffles word.toList) := by
      unfold shuffle_word
      rw [if_neg hl]
    refine ⟨?_, fun h => absurd h hl, fun _ h2 => ?_⟩
    · rw [he]
      exact shuffleGo_perm (lower word) shuffles hperm word.toList
    · rw [he]
      rw [he] at h2
      exact shuffleGo_exhausted (lower word) shuffles word.toList h2

/-- C5 amended, witness: scrambling `komputer` under the concrete shuffle
outcomes yields a permutation of its characters. -/
theorem shuffle_word_spec_witness :
    (shuffle_word cexShuffles "komputer").toList.Perm "komputer".toList := by
  exact (shuffle_word_spec cexShuffles "komputer" cexShuffles_perms).1

/-- C6: a submitted chain word is accepted exactly when its normalization
has at least 3 letters, is not yet used, and starts with the last letter
of the previous word; acceptance installs the normalized word as the new
last word and prepends it to the used set, every rejection leaves the
session untouched, and each rejection constructor characterizes exactly
its violated rule (checked in source order). -/
theorem kata_step_rules (s : ChainState) (w : String) (hlast : s.last ≠ "") :
    ((kata_step s w).1 = KataResult.ok (clean_word w) ↔
      3 ≤ (clean_word w).toList.length ∧ clean_word w ∉ s.used
      ∧ (clean_word w).toList.headD ' ' = s.last.toList.getLastD ' ')
    ∧ ((kata_step s w).1 = KataResult.ok (clean_word w) →
        (kata_step s w).2 = ⟨clean_word w, clean_word w :: s.used⟩)
    ∧ ((kata_step s w).1 ≠ KataResult.ok (clean_word w) → (kata_step s w).2 = s)
    ∧ ((kata_step s w).1 = KataResult.tooShort ↔ (clean_word w).toList.length < 3)
    ∧ ((kata_step s w).1 = KataResult.alreadyUsed ↔
        3 ≤ (clean_word w).toList.length ∧ clean_word w ∈ s.used)
    ∧ ((kata_step s w).1 = KataResult.wrongStart (s.last.toList.getLastD ' ') ↔
        3 ≤ (clean_word w).toList.length ∧ clean_word w ∉ s.used
        ∧ (clean_word w).toList.headD ' ' ≠ s.last.toList.getLastD ' ') := by
  simp only [kata_step]
  split_ifs with h1 h2 h3 <;> simp_all

/-- C6 witness: with last word `kata` and used set `{kata}`: `ayam` is
accepted (it starts with `a`), `an` is too short, and `kata` again is
already used — the spec's own examples. -/
theorem kata_step_rules_witness :
    (kata_step chainKata "ayam").1 = KataResult.ok (clean_word "ayam")
    ∧ (kata_step chainKata "an").1 = KataResult.tooShort
    ∧ (kata_step chainKata "kata").1 = KataResult.alreadyUsed := by
  refine ⟨((kata_step_rules chainKata "ayam" (by decide)).1).mpr (by decide),
    ((kata_step_rules chainKata "an" (by decide)).2.2.2.1).mpr (by decide),
    ((kata_step_rules chainKata "kata" (by decide)).2.2.2.2.1).mpr (by decide)⟩

/-- When the running flag never goes false, the per-turn check of
`debate_runner` passes every time and the planned turns are emitted
verbatim. -/
theorem runTurns_of_true (running : Nat → Bool) (h : ∀ k, running k = true) :
    ∀ ts k, runTurns running k ts = ts := by
  intro ts
  induction ts with
  | nil => intro k; rfl
  | cons t ts ih =>
      intro k
      simp [runTurns, h k, ih (k + 1)]

/-- The loop nest of `debate_runner` announces
`rounds × (|pro| + |kontra|)` turns. -/
theorem loop_turns_length (R : Nat) (pro kontra : List Nat) :
    (loop_turns R pro kontra).length = R * (pro.length + kontra.length) := by
  induction R with
  | zero => simp [loop_turns]
  | succ n ih =>
      rw [loop_turns, List.range'_concat, List.flatMap_append]
      rw [loop_turns] at ih
      simp [ih]
      ring

/-- Once the runner's flag observation goes false at check `k0`, at most
`k0 - k` further turns are announced from check `k` on: the runner halts
at its next check point. -/
theorem runTurns_stopped (running : Nat → Bool) (k0 : Nat) (h : running k0 = false) :
    ∀ ts k, k ≤ k0 → (runTurns running k ts).length ≤ k0 - k := by
  intro ts
  induction ts with
  | nil => intro k _; simp [runTurns]
  | cons t ts ih =>
      intro k hk
      by_cases hr : running k = true
      · have hne : k ≠ k0 := by
          intro he
          rw [he, h] at hr
          exact Bool.noConfusion hr
        have hih := ih (k + 1) (by omega)
        simp only [runTurns, hr, if_true, List.length_cons]
        omega
      · have hrf : running k = false := by
          cases hb : running k
          · rfl
          · exact absurd hb hr
        simp [runTurns, hrf]

/-- C7: a debate run whose flag is never cleared emits exactly the loop
nest's turn list — every round from 1 to `rounds`, within it first the PRO
roster then the KONTRA roster, each in join order — for a total of
`rounds × (|pro| + |kontra|)` turn announcements. -/
theorem debate_runner_complete (running : Nat → Bool) (R : Nat) (pro kontra : List Nat)
    (h : ∀ k, running k = true) :
    debate_runner running R pro kontra = loop_turns R pro kontra
    ∧ (debate_runner running R pro kontra).length = R * (pro.length + kontra.length) := by
  have he : debate_runner running R pro kontra = loop_turns R pro kontra :=
    runTurns_of_true running h _ 0
  exact ⟨he, by rw [he, loop_turns_length]⟩

/-- C7 witness: `rounds = 2`, pro `[u1, u2]`, kontra `[u3]` yields the six
turns of the spec's example in its exact order. -/
theorem debate_runner_complete_witness :
    debate_runner (fun _ => true) 2 [1, 2] [3]
      = [⟨1, "PRO", 1⟩, ⟨1, "PRO", 2⟩, ⟨1, "KONTRA", 3⟩,
         ⟨2, "PRO", 1⟩, ⟨2, "PRO", 2⟩, ⟨2, "KONTRA", 3⟩]
    ∧ (debate_runner (fun _ => true) 2 [1, 2] [3]).length = 2 * (2 + 1) := by
  have h := debate_runner_complete (fun _ => true) 2 [1, 2] [3] (fun _ => rfl)
  exact ⟨h.1.trans (by decide), h.2⟩

/-- C8 (cooperative cancellation model): when `!debat_start` actually
attaches a new runner while the channel still maps a live (not done) task,
it first calls `cancel()` on that task — the old handle is no longer alive
once the new task is stored, other channels' tasks are untouched — and
`!debat_stop` clears the session's running flag and cancels the mapped
task; a runner whose flag observation is false at check `k` announces at
most `k` turns, so neither a replaced nor a stopped runner emits a turn
after its cancellation point. -/
theorem debat_start_cancels_and_stop_halts
    (sessions : Nat → Option DebateSession) (tasks : Nat → Option TaskH) (ch : Nat)
    (s : DebateSession) (t : TaskH)
    (hs : sessions ch = some s) (hrun : s.running = false)
    (hp : s.pro ≠ []) (hk : s.kontra ≠ [])
    (ht : tasks ch = some t) (hd : t.done = false)
    (running : Nat → Bool) (R : Nat) (pro kontra : List Nat) (k : Nat)
    (hstop : running k = false) :
    (debat_start sessions tasks ch).result = .started
    ∧ (debat_start sessions tasks ch).oldTaskAfter = some ⟨false, true⟩
    ∧ (debat_start sessions tasks ch).oldTaskAfter.map TaskH.alive = some false
    ∧ (debat_start sessions tasks ch).tasks ch = some ⟨false, false⟩
    ∧ (∀ c, c ≠ ch → (debat_start sessions tasks ch).tasks c = tasks c)
    ∧ (debat_stop sessions tasks ch).stoppedSession = some { s with running := false }
    ∧ (debat_stop sessions tasks ch).tasks ch = some ⟨false, true⟩
    ∧ (debat_stop sessions tasks ch).sessions ch = none
    ∧ (debate_runner running R pro kontra).length ≤ k := by
  have hpe : s.pro.isEmpty = false := by
    cases hsp : s.pro with
    | nil => exact absurd hsp hp
    | cons a l => rfl
  have hke : s.kontra.isEmpty = false := by
    cases hsk : s.kontra with
    | nil => exact absurd hsk hk
    | cons a l => rfl
  have hT : ({ t with cancelled := true } : TaskH) = ⟨false, true⟩ := by
    cases t
    simp_all
  refine ⟨?_, ?_, ?_, ?_, ?_, ?_, ?_, ?_, ?_⟩
  · simp [debat_start, hs, hrun, hpe, hke]
  · simp [debat_start, hs, hrun, hpe, hke, ht, hd, hT]
  · simp [debat_start, hs, hrun, hpe, hke, ht, hd, hT, TaskH.alive]
  · simp [debat_start, hs, hrun, hpe, hke]
  · intro c hc
    simp [debat_start, hs, hrun, hpe, hke, hc]
  · simp [debat_stop, hs]
  · simp [debat_stop, hs, ht, hd, hT]
  · simp [debat_stop, hs]
  · have := runTurns_stopped running k hstop (loop_turns R pro kontra) 0 (by omega)
    simpa [debate_runner] using this

/-- C8 witness: on channel 7 — session defined and not running, one user
per side, a live leftover task — starting succeeds, the leftover task
comes back cancelled, and a runner observing a cleared flag at its first
check emits zero turns. -/
theorem debat_start_cancels_witness :
    (debat_start sessions7 tasks7 7).result = StartResult.started
    ∧ (debat_start sessions7 tasks7 7).oldTaskAfter = some ⟨false, true⟩
    ∧ (debate_runner (fun _ => false) 1 [1] [2]).length ≤ 0 := by
  have h := debat_start_cancels_and_stop_halts sessions7 tasks7 7
    ⟨1, 7, "t", 10, 2, [1], [2], [], false⟩ ⟨false, false⟩
    rfl rfl (by decide) (by decide) rfl rfl (fun _ => false) 1 [1] [2] 0 rfl
  exact ⟨h.1, h.2.1, h.2.2.2.2.2.2.2.2⟩

end BotSpec
